import Mathlib

/-!
Verification development for the two exercise scripts of the repository:
a realtime voice bridge (W4_realtime_voice_agent_BLANK.py) and a turn-based
voice chat UI (W4_voice_chat_app_BLANK.py).  Pure parts of the Python code
are embedded as Lean functions; the event loops become step functions folded
over event lists, and external network calls become oracle parameters
returning Except values (an Except.error models a raised exception).
-/

namespace Realtime

/-- Inbound event from the realtime API, as dispatched in receive_messages.
The audioDelta constructor carries the base64-decoded bytes of the delta
field (a byte is a Nat); the other payload-carrying constructors carry the
text fields the loop prints. -/
inductive Event where
  | sessionCreated
  | sessionUpdated
  | speechStarted
  | speechStopped
  | transcriptionCompleted (transcript : String)
  | audioTranscriptDelta (delta : String)
  | audioTranscriptDone
  | audioDelta (bytes : List Nat)
  | audioDone
  | responseDone
  | errorEvent (msg : String)
  deriving DecidableEq

/-- State of the receive_messages loop: the local audio_buffer list of
decoded chunks, the agent's is_speaking flag, and the list of arguments of
the play_audio calls made so far (in call order). -/
structure AgentState where
  audio_buffer : List (List Nat)
  is_speaking : Bool
  plays : List (List Nat)
  deriving DecidableEq

/-- Initial state of receive_messages: audio_buffer = [], no playback yet;
is_speaking is initialised to False in RealtimeVoiceAgent.__init__. -/
def initState : AgentState :=
  { audio_buffer := [], is_speaking := false, plays := [] }

/-- One iteration of the event dispatch in receive_messages.
The response.audio.done branch is from the source (lines 253-258): if the
buffer is non-empty, play_audio is called on the concatenation of the
chunks and the buffer is cleared; is_speaking is set to False either way.
The response.audio.delta branch is blank in the exercise file (TODO 4);
it is modelled from the spec, section 4.1: audio-delta events accumulate
decoded bytes into the in-memory buffer, following the in-file hints
(set is_speaking, append the decoded bytes when the delta is non-empty).
Events that only print text leave the state unchanged. -/
def receiveStep (s : AgentState) (e : Event) : AgentState :=
  match e with
  | Event.speechStarted => { s with is_speaking := false }
  | Event.audioDelta bytes =>
      if bytes = [] then { s with is_speaking := true }
      else { s with is_speaking := true, audio_buffer := s.audio_buffer ++ [bytes] }
  | Event.audioDone =>
      if s.audio_buffer = [] then { s with is_speaking := false }
      else { s with plays := s.plays ++ [s.audio_buffer.flatten],
                    audio_buffer := [], is_speaking := false }
  | _ => s

/-- The receive_messages loop run over a finite inbound event sequence. -/
def receiveRun (s : AgentState) : List Event → AgentState
  | [] => s
  | e :: es => receiveRun (receiveStep s e) es

/-- The decoded byte chunks of the audio-delta events of a sequence,
in arrival order. -/
def deltaBytes : List Event → List (List Nat)
  | [] => []
  | Event.audioDelta b :: es => b :: deltaBytes es
  | _ :: es => deltaBytes es

/-- The chunks a run actually appends to the buffer: the non-empty ones. -/
def nonEmptyChunks (l : List (List Nat)) : List (List Nat) :=
  l.filter (fun b => !b.isEmpty)

/-- A frame of captured audio, as raw bytes. -/
abbrev Frame := List Nat

/-- RealtimeVoiceAgent.__init__ creates the send queue as asyncio.Queue()
with no maxsize argument; the asyncio default maxsize is 0. -/
def audio_queue_maxsize : Nat := 0

/-- asyncio.Queue.full semantics: a queue is full iff its maxsize is
positive and the current size has reached it (maxsize <= 0 means an
unbounded queue that is never full). -/
def queueFull (maxsize len : Nat) : Bool :=
  decide (0 < maxsize) && decide (maxsize ≤ len)

/-- audio_callback (lines 139-148): put_nowait the captured frame; on
QueueFull the frame is dropped.  Modelled on the queue contents. -/
def audio_callback (q : List Frame) (frame : Frame) : List Frame :=
  if queueFull audio_queue_maxsize q.length then q else q ++ [frame]

/-- The queue contents after n invocations of the capture callback starting
from an empty queue (each invocation delivering some frame; the frame
content is irrelevant to the length). -/
def fillQueue : Nat → List Frame
  | 0 => []
  | n + 1 => audio_callback (fillQueue n) []




theorem queueFull_maxsize_zero (len : Nat) : queueFull 0 len = false := by
  simp [queueFull]

theorem audio_callback_append (q : List Frame) (f : Frame) :
    audio_callback q f = q ++ [f] := by
  simp [audio_callback, queueFull_maxsize_zero, audio_queue_maxsize]

theorem fillQueue_length (n : Nat) : (fillQueue n).length = n := by
  induction n with
  | zero => rfl
  | succ k ih => simp [fillQueue, audio_callback_append, ih]

theorem receiveRun_append (s : AgentState) (l1 l2 : List Event) :
    receiveRun s (l1 ++ l2) = receiveRun (receiveRun s l1) l2 := by
  induction l1 generalizing s with
  | nil => rfl
  | cons e es ih => simp [receiveRun, ih]

theorem flatten_nonEmptyChunks (l : List (List Nat)) :
    (nonEmptyChunks l).flatten = l.flatten := by
  induction l with
  | nil => rfl
  | cons b bs ih =>
      by_cases hb : b.isEmpty
      · have hbnil : b = [] := List.isEmpty_iff.mp hb
        simp [nonEmptyChunks, List.filter, hb, hbnil] at *
        simpa [nonEmptyChunks] using ih
      · simp [nonEmptyChunks, List.filter, hb] at *
        simp [nonEmptyChunks, ih]

/-- Running a done-free event sequence does not call play_audio and appends
exactly the non-empty delta chunks to the buffer. -/
theorem receiveRun_no_done (pre : List Event) (s : AgentState)
    (h : Event.audioDone ∉ pre) :
    (receiveRun s pre).plays = s.plays ∧
    (receiveRun s pre).audio_buffer =
      s.audio_buffer ++ nonEmptyChunks (deltaBytes pre) := by
  induction pre generalizing s with
  | nil => simp [receiveRun, deltaBytes, nonEmptyChunks]
  | cons e es ih =>
      have hne : e ≠ Event.audioDone := fun he => h (by simp [he])
      have hes : Event.audioDone ∉ es := fun he => h (by simp [he])
      have ihs := ih (receiveStep s e) hes
      cases e with
      | audioDelta b =>
          by_cases hb : b = []
          · have hbe : b.isEmpty = true := by simp [hb]
            refine ⟨?_, ?_⟩
            · simpa [receiveRun, receiveStep, hb] using ihs.1
            · have h2 := ihs.2
              simp [receiveRun, receiveStep, hb, deltaBytes,
                    nonEmptyChunks, List.filter, hbe] at *
              simpa [nonEmptyChunks] using h2
          · have hbe : b.isEmpty = false := by
              simpa [List.isEmpty_iff] using hb
            refine ⟨?_, ?_⟩
            · simpa [receiveRun, receiveStep, hb] using ihs.1
            · have h2 := ihs.2
              simp [receiveRun, receiveStep, hb, deltaBytes,
                    nonEmptyChunks, List.filter, hbe] at *
              simpa [nonEmptyChunks] using h2
      | audioDone => exact absurd rfl hne
      | sessionCreated =>
          simpa [receiveRun, receiveStep, deltaBytes] using ihs
      | sessionUpdated =>
          simpa [receiveRun, receiveStep, deltaBytes] using ihs
      | speechStarted =>
          simpa [receiveRun, receiveStep, deltaBytes] using ihs
      | speechStopped =>
          simpa [receiveRun, receiveStep, deltaBytes] using ihs
      | transcriptionCompleted t =>
          simpa [receiveRun, receiveStep, deltaBytes] using ihs
      | audioTranscriptDelta d =>
          simpa [receiveRun, receiveStep, deltaBytes] using ihs
      | audioTranscriptDone =>
          simpa [receiveRun, receiveStep, deltaBytes] using ihs
      | responseDone =>
          simpa [receiveRun, receiveStep, deltaBytes] using ihs
      | errorEvent m =>
          simpa [receiveRun, receiveStep, deltaBytes] using ihs


/-- Claim C1: for every inbound event sequence in which audio-delta events
(at least one of them carrying bytes) are followed eventually by the first
audio-done event, the receive loop makes exactly one play_audio call, whose
buffer argument is the concatenation, in arrival order, of the decoded
bytes of all the delta events, and the accumulation buffer is cleared
after that call. -/
theorem audio_deltas_flushed_once (pre : List Event)
    (hnd : Event.audioDone ∉ pre)
    (hne : (deltaBytes pre).flatten ≠ []) :
    (receiveRun initState (pre ++ [Event.audioDone])).plays
      = [(deltaBytes pre).flatten] ∧
    (receiveRun initState (pre ++ [Event.audioDone])).audio_buffer = [] := by
  have hrun := receiveRun_no_done pre initState hnd
  have hplays : (receiveRun initState pre).plays = [] := by
    simpa [initState] using hrun.1
  have hbuf : (receiveRun initState pre).audio_buffer
      = nonEmptyChunks (deltaBytes pre) := by
    simpa [initState] using hrun.2
  have hnec : nonEmptyChunks (deltaBytes pre) ≠ [] := by
    intro hc
    apply hne
    rw [← flatten_nonEmptyChunks, hc]
    rfl
  rw [receiveRun_append]
  constructor
  · simp [receiveRun, receiveStep, hplays, hbuf, hnec, flatten_nonEmptyChunks]
  · simp [receiveRun, receiveStep, hplays, hbuf, hnec]

theorem audio_deltas_flushed_once_witness :
    (receiveRun initState
        ([Event.sessionCreated, Event.audioDelta [1, 2],
          Event.audioTranscriptDelta "hi", Event.audioDelta [3]]
          ++ [Event.audioDone])).plays = [[1, 2, 3]] ∧
    (receiveRun initState
        ([Event.sessionCreated, Event.audioDelta [1, 2],
          Event.audioTranscriptDelta "hi", Event.audioDelta [3]]
          ++ [Event.audioDone])).audio_buffer = [] := by
  have h := audio_deltas_flushed_once
    [Event.sessionCreated, Event.audioDelta [1, 2],
     Event.audioTranscriptDelta "hi", Event.audioDelta [3]]
    (by decide) (by decide)
  simpa [deltaBytes] using h

/-- Claim C3 counterexample: the send queue is not bounded.  The queue is
created as asyncio.Queue() with the default maxsize of 0, which asyncio
treats as infinite, so no bound B caps the queue length reachable by
repeated capture-callback invocations. -/
theorem send_queue_not_bounded :
    ¬ ∃ B : Nat, ∀ n : Nat, (fillQueue n).length ≤ B := by
  rintro ⟨B, hB⟩
  have h := hB (B + 1)
  rw [fillQueue_length] at h
  omega

/-- Claim C3 (amended): the send queue is created unbounded (asyncio
default maxsize 0, never full), and every invocation of the capture
callback returns without blocking: it uses put_nowait, and since the
drop-on-full branch never fires, the frame is always enqueued. -/
theorem audio_callback_never_blocks (q : List Frame) (f : Frame) :
    audio_callback q f = q ++ [f] ∧
    queueFull audio_queue_maxsize q.length = false :=
  ⟨audio_callback_append q f, queueFull_maxsize_zero q.length⟩

end Realtime

namespace VoiceChat

/-- One entry of the st.session_state.messages transcript list.  User
entries are dicts with role, content and from_voice; assistant entries are
dicts with role, content, audio and just_generated; absent keys are read
with dict.get defaults (None / False), modelled by the field defaults. -/
structure Message where
  role : String
  content : String
  from_voice : Bool := false
  audio : Option (List Nat) := none
  just_generated : Bool := false
  deriving DecidableEq

/-- The st.session_state fields the app initialises and uses.  The hash
digest is modelled as a Nat; None becomes Option.none. -/
structure SessionState where
  conversation_id : Option String
  messages : List Message
  voice_enabled : Bool
  selected_voice : String
  auto_play : Bool
  transcription_language : Option String
  processed_audio_hash : Option Nat
  audio_input_key : Nat
  input_mode : String
  deriving DecidableEq

/-- The session-state initialisation block (lines 69-94 of the app). -/
def initialSessionState : SessionState :=
  { conversation_id := none
    messages := []
    voice_enabled := true
    selected_voice := "nova"
    auto_play := true
    transcription_language := some "en"
    processed_audio_hash := none
    audio_input_key := 0
    input_mode := "voice" }

/-- Modelled from the spec: the body of compute_audio_hash (TODO 1 in the
exercise file) is blank; the spec, section 4.2 step 2, says it computes a
content hash (MD5 per the in-file hint) of the raw audio clip bytes.  It
is modelled as a deterministic 128-bit digest of the byte sequence. -/
def compute_audio_hash (audio_bytes : List Nat) : Nat :=
  List.foldl (fun h b => (h * 257 + b % 256 + 1) % 2 ^ 128) 1 audio_bytes

/-- The New Conversation button handler (lines 143-148): clears the
conversation id, the transcript, the processed-audio hash, and bumps the
audio-input widget key (the st.rerun only re-renders). -/
def newConversation (s : SessionState) : SessionState :=
  { s with conversation_id := none
           messages := []
           processed_audio_hash := none
           audio_input_key := s.audio_input_key + 1 }

/-- The three external, network-bound calls the UI makes, as oracles; an
Except.error models the call raising an exception with that message. -/
structure Oracles where
  chatbot_response : String → Option String → Except String (String × String)
  transcribe_audio : List Nat → Option String → Except String String
  text_to_speech : String → String → Except String (List Nat)

/-- Observable effects of one turn, in order: external calls made and
user-visible UI outcomes. -/
inductive Effect where
  | transcribeCall
  | chatCall (text : String) (conv : Option String)
  | ttsCall (text : String)
  | errorShown (msg : String)
  | warningShown
  | rerun
  deriving DecidableEq

/-- The user turn appended at the top of process_user_input (line 235). -/
def userMessage (t : String) (fv : Bool) : Message :=
  { role := "human", content := t, from_voice := fv }

/-- Modelled from the spec: the assistant turn appended at the end of
process_user_input (TODO 4 is blank; the in-file hint and spec section 3
give role ai, the reply text, the optional synthesized audio bytes, and
just_generated = True for one-shot autoplay). -/
def aiMessage (t : String) (audio : Option (List Nat)) : Message :=
  { role := "ai", content := t, audio := audio, just_generated := true }

/-- process_user_input (lines 232-294).  The user-turn append before any
external call is from the source (line 235).  Modelled from the spec: the
bodies of TODO 2 (forward text plus the current conversation id to the
chat function, store the returned id and reply), TODO 3 (synthesize speech
for the reply when voice output is enabled) and TODO 4 (append the
assistant turn) are blank in the exercise file and are modelled from the
spec, section 4.2 steps 3-5, and the in-file hints.  Returns the session
state as mutated so far, the effects in order, and the exception escaping
the function, if any (Python leaves earlier in-place mutations committed
when a later call raises). -/
def process_user_input (o : Oracles) (s : SessionState) (user_text : String)
    (from_voice : Bool) : SessionState × List Effect × Option String :=
  let s1 := { s with messages := s.messages ++ [userMessage user_text from_voice] }
  match o.chatbot_response user_text s1.conversation_id with
  | Except.error e =>
      (s1, [Effect.chatCall user_text s1.conversation_id], some e)
  | Except.ok (cid, ai_text) =>
      let s2 := { s1 with conversation_id := some cid }
      if s2.voice_enabled then
        match o.text_to_speech ai_text s2.selected_voice with
        | Except.error e =>
            (s2, [Effect.chatCall user_text s1.conversation_id,
                  Effect.ttsCall ai_text], some e)
        | Except.ok audio_data =>
            ({ s2 with messages := s2.messages ++ [aiMessage ai_text (some audio_data)] },
             [Effect.chatCall user_text s1.conversation_id,
              Effect.ttsCall ai_text], none)
      else
        ({ s2 with messages := s2.messages ++ [aiMessage ai_text none] },
         [Effect.chatCall user_text s1.conversation_id], none)

/-- The voice-input branch (lines 298-343).  From the source: read the
clip bytes, hash them, and only process when the hash differs from the
stored processed-audio hash; inside the try block, an empty transcript
shows a warning and changes nothing, a non-empty transcript first stores
the hash, then bumps the widget key, then runs process_user_input and
reruns; any exception raised inside the try is caught and shown with
st.error.  Modelled from the spec: the transcription call itself (TODO 5
is blank; spec section 4.2 step 1). -/
def audio_input_handler (o : Oracles) (s : SessionState)
    (audio_bytes : List Nat) : SessionState × List Effect :=
  let audio_hash := compute_audio_hash audio_bytes
  if some audio_hash ≠ s.processed_audio_hash then
    match o.transcribe_audio audio_bytes s.transcription_language with
    | Except.error e => (s, [Effect.transcribeCall, Effect.errorShown e])
    | Except.ok transcript =>
        if transcript = "" then
          (s, [Effect.transcribeCall, Effect.warningShown])
        else
          let s1 := { s with processed_audio_hash := some audio_hash
                             audio_input_key := s.audio_input_key + 1 }
          match process_user_input o s1 transcript true with
          | (s2, effs, some e) =>
              (s2, Effect.transcribeCall :: effs ++ [Effect.errorShown e])
          | (s2, effs, none) =>
              (s2, Effect.transcribeCall :: effs ++ [Effect.rerun])
  else
    (s, [])

/-- The text-input branch (lines 346-348): a submitted non-empty text is
processed with no dedup check and no try/except; the empty string models
the chat_input returning nothing. -/
def text_input_handler (o : Oracles) (s : SessionState)
    (text_input : String) : SessionState × List Effect :=
  if text_input = "" then (s, [])
  else
    match process_user_input o s text_input false with
    | (s2, effs, some _) => (s2, effs)
    | (s2, effs, none) => (s2, effs ++ [Effect.rerun])

end VoiceChat

namespace VoiceChat

/-- Oracle where every external call succeeds. -/
def okOracle : Oracles :=
  { chatbot_response := fun _ _ => Except.ok ("cid-1", "reply")
    transcribe_audio := fun _ _ => Except.ok "hi"
    text_to_speech := fun _ _ => Except.ok [1] }

/-- Oracle whose chat call raises. -/
def failingChatOracle : Oracles :=
  { chatbot_response := fun _ _ => Except.error "chat backend down"
    transcribe_audio := fun _ _ => Except.ok "hello"
    text_to_speech := fun _ _ => Except.ok [1] }

/-- Oracle whose transcription call raises. -/
def failingTranscribeOracle : Oracles :=
  { chatbot_response := fun _ _ => Except.ok ("cid-1", "reply")
    transcribe_audio := fun _ _ => Except.error "network down"
    text_to_speech := fun _ _ => Except.ok [1] }

/-- Oracle whose transcription returns empty text. -/
def emptyTranscriptOracle : Oracles :=
  { chatbot_response := fun _ _ => Except.ok ("cid-1", "reply")
    transcribe_audio := fun _ _ => Except.ok ""
    text_to_speech := fun _ _ => Except.ok [1] }

/-- Oracle for the two-turn example: the first chat call (empty identifier)
returns id abc123 with reply hi there; later calls echo the identifier. -/
def scenarioOracle : Oracles :=
  { chatbot_response := fun _ cid =>
      match cid with
      | none => Except.ok ("abc123", "hi there")
      | some c => Except.ok (c, "doing well")
    transcribe_audio := fun _ _ => Except.ok "hello"
    text_to_speech := fun _ _ => Except.ok [7, 7] }

/-- Whatever the oracle outcomes, the first effect of process_user_input is
the chat call, made with the current conversation identifier. -/
theorem process_effects_head (o : Oracles) (s : SessionState) (t : String)
    (fv : Bool) :
    (process_user_input o s t fv).2.1.head?
      = some (Effect.chatCall t s.conversation_id) := by
  rcases h1 : o.chatbot_response t s.conversation_id with e | ⟨cid, ai⟩
  · simp [process_user_input, h1]
  · simp only [process_user_input, h1]
    by_cases hv : s.voice_enabled <;>
      rcases h2 : o.text_to_speech ai s.selected_voice with e2 | a <;>
        simp [h2, hv]

/-- Whatever the oracle outcomes, process_user_input first appends the user
turn: the first length+1 entries of the resulting transcript are the old
transcript followed by the user message. -/
theorem process_messages_prefix (o : Oracles) (s : SessionState) (t : String)
    (fv : Bool) :
    (process_user_input o s t fv).1.messages.take (s.messages.length + 1)
      = s.messages ++ [userMessage t fv] := by
  have hlen : (s.messages ++ [userMessage t fv]).length = s.messages.length + 1 := by
    simp
  rcases h1 : o.chatbot_response t s.conversation_id with e | ⟨cid, ai⟩ <;>
    simp only [process_user_input, h1]
  · rw [List.take_of_length_le (by simp)]
  · by_cases hv : s.voice_enabled <;>
      rcases h2 : o.text_to_speech ai s.selected_voice with e2 | a <;>
        simp only [h2, hv, if_true, if_false, Bool.false_eq_true, ite_false, ite_true]
    · rw [List.take_of_length_le (by simp)]
    · exact List.take_left' hlen
    · exact List.take_left' hlen
    · exact List.take_left' hlen

end VoiceChat

namespace VoiceChat

/-- Claim C2 counterexample: with a failing chat call, the error is shown
but the turn is partially committed: starting from the initial session
state (empty transcript), the voice turn ends with the user message
appended, the processed-audio hash stored and the widget key bumped, so
the conversation state is not what it was before the turn began. -/
theorem chat_exception_commits_partial_turn :
    (audio_input_handler failingChatOracle initialSessionState [0, 1, 2]).2
      = [Effect.transcribeCall, Effect.chatCall "hello" none,
         Effect.errorShown "chat backend down"] ∧
    (audio_input_handler failingChatOracle initialSessionState [0, 1, 2]).1.messages
      = [userMessage "hello" true] ∧
    (audio_input_handler failingChatOracle initialSessionState [0, 1, 2]).1.processed_audio_hash
      ≠ initialSessionState.processed_audio_hash ∧
    (audio_input_handler failingChatOracle initialSessionState [0, 1, 2]).1.audio_input_key
      = initialSessionState.audio_input_key + 1 := by
  refine ⟨rfl, rfl, ?_, rfl⟩
  decide

/-- Claim C2 (amended): any exception during a turn's external calls is
surfaced as a visible error message, and the state rolls back only as far
as Python's in-place mutations allow: a transcription failure leaves the
conversation state exactly unchanged, while a chat-call failure leaves the
user turn, the processed-audio hash and the bumped widget key committed,
and a speech-synthesis failure additionally leaves the updated
conversation identifier committed (no assistant turn is ever committed
with the error). -/
theorem turn_exception_paths (o : Oracles) (s : SessionState)
    (clip : List Nat)
    (hdup : some (compute_audio_hash clip) ≠ s.processed_audio_hash) :
    (∀ e, o.transcribe_audio clip s.transcription_language = Except.error e →
        audio_input_handler o s clip
          = (s, [Effect.transcribeCall, Effect.errorShown e])) ∧
    (∀ t e, o.transcribe_audio clip s.transcription_language = Except.ok t →
        t ≠ "" →
        o.chatbot_response t s.conversation_id = Except.error e →
        audio_input_handler o s clip
          = ({ s with processed_audio_hash := some (compute_audio_hash clip)
                      audio_input_key := s.audio_input_key + 1
                      messages := s.messages ++ [userMessage t true] },
             [Effect.transcribeCall, Effect.chatCall t s.conversation_id,
              Effect.errorShown e])) ∧
    (∀ t cid ai e,
        o.transcribe_audio clip s.transcription_language = Except.ok t →
        t ≠ "" →
        o.chatbot_response t s.conversation_id = Except.ok (cid, ai) →
        s.voice_enabled = true →
        o.text_to_speech ai s.selected_voice = Except.error e →
        audio_input_handler o s clip
          = ({ s with processed_audio_hash := some (compute_audio_hash clip)
                      audio_input_key := s.audio_input_key + 1
                      messages := s.messages ++ [userMessage t true]
                      conversation_id := some cid },
             [Effect.transcribeCall, Effect.chatCall t s.conversation_id,
              Effect.ttsCall ai, Effect.errorShown e])) := by
  refine ⟨?_, ?_, ?_⟩
  · intro e he
    simp [audio_input_handler, hdup, he]
  · intro t e ht hne hc
    simp [audio_input_handler, hdup, ht, hne, process_user_input, hc]
  · intro t cid ai e ht hne hc hv htts
    simp [audio_input_handler, hdup, ht, hne, process_user_input, hc, hv, htts]

theorem turn_exception_paths_witness :
    audio_input_handler failingTranscribeOracle initialSessionState [5]
      = (initialSessionState,
         [Effect.transcribeCall, Effect.errorShown "network down"]) :=
  (turn_exception_paths failingTranscribeOracle initialSessionState [5]
    (by decide)).1 "network down" rfl

/-- Claim C4: submitting an audio clip whose bytes hash to the stored
processed-audio hash produces no new chat turn: the handler makes no
external call, shows nothing, and leaves the session state (transcript
included) exactly unchanged. -/
theorem duplicate_clip_skipped (o : Oracles) (s : SessionState)
    (clip : List Nat)
    (h : s.processed_audio_hash = some (compute_audio_hash clip)) :
    audio_input_handler o s clip = (s, []) := by
  simp [audio_input_handler, h]

/-- A session state whose stored hash is that of the clip [3, 1, 4]. -/
def dedupState : SessionState :=
  { initialSessionState with
      processed_audio_hash := some (compute_audio_hash [3, 1, 4]) }

theorem duplicate_clip_skipped_witness :
    audio_input_handler okOracle dedupState [3, 1, 4] = (dedupState, []) :=
  duplicate_clip_skipped okOracle dedupState [3, 1, 4] rfl

/-- Claim C5: the New Conversation action clears the transcript list and
resets the conversation identifier to empty (None), and the next turn's
chat call is made with that empty identifier. -/
theorem new_conversation_resets (o : Oracles) (s : SessionState)
    (t : String) (fv : Bool) :
    (newConversation s).messages = [] ∧
    (newConversation s).conversation_id = none ∧
    (process_user_input o (newConversation s) t fv).2.1.head?
      = some (Effect.chatCall t none) :=
  ⟨rfl, rfl, process_effects_head o (newConversation s) t fv⟩

/-- Claim C6: from an empty conversation, the turn "hello" with the chat
function returning (abc123, hi there) leaves exactly the two entries
user hello and assistant hi there in the transcript, and the following
turn "how are you" is sent to the chat function with identifier abc123. -/
theorem conversation_example :
    ((process_user_input scenarioOracle initialSessionState "hello" false).1.messages
      = [userMessage "hello" false, aiMessage "hi there" (some [7, 7])]) ∧
    ((process_user_input scenarioOracle
        (process_user_input scenarioOracle initialSessionState "hello" false).1
        "how are you" false).2.1.head?
      = some (Effect.chatCall "how are you" (some "abc123"))) :=
  ⟨rfl, rfl⟩

/-- Claim C7: when transcription returns empty text, a retry warning is
shown, no chat call is made, and the session state (transcript,
conversation identifier, processed-audio hash and widget key) is exactly
unchanged. -/
theorem empty_transcript_soft_failure (o : Oracles) (s : SessionState)
    (clip : List Nat)
    (hdup : some (compute_audio_hash clip) ≠ s.processed_audio_hash)
    (ht : o.transcribe_audio clip s.transcription_language = Except.ok "") :
    audio_input_handler o s clip
      = (s, [Effect.transcribeCall, Effect.warningShown]) := by
  simp [audio_input_handler, hdup, ht]

theorem empty_transcript_soft_failure_witness :
    audio_input_handler emptyTranscriptOracle initialSessionState [9]
      = (initialSessionState, [Effect.transcribeCall, Effect.warningShown]) :=
  empty_transcript_soft_failure emptyTranscriptOracle initialSessionState [9]
    (by decide) rfl

/-- Claim C9: the content-hash dedup applies only to recorded voice input:
a typed non-empty text submission is always processed — the chat call is
made and a new user turn is appended — even when the text equals the
immediately preceding turn's content. -/
theorem text_mode_no_dedup (o : Oracles) (s : SessionState) (t : String)
    (ht : t ≠ "") :
    ((text_input_handler o s t).1.messages.take (s.messages.length + 1)
      = s.messages ++ [userMessage t false]) ∧
    ((text_input_handler o s t).2.head?
      = some (Effect.chatCall t s.conversation_id)) := by
  have h1 := process_messages_prefix o s t false
  have h2 := process_effects_head o s t false
  rcases hp : process_user_input o s t false with ⟨s2, effs, exc⟩
  rw [hp] at h1 h2
  cases exc with
  | none =>
      refine ⟨?_, ?_⟩
      · simpa [text_input_handler, ht, hp] using h1
      · have : (effs ++ [Effect.rerun]).head?
            = some (Effect.chatCall t s.conversation_id) := by
          cases effs with
          | nil => simp at h2
          | cons a as => simpa using h2
        simpa [text_input_handler, ht, hp] using this
  | some e =>
      refine ⟨?_, ?_⟩
      · simpa [text_input_handler, ht, hp] using h1
      · simpa [text_input_handler, ht, hp] using h2

/-- A session whose previous user turn already says "same". -/
def dupContentState : SessionState :=
  { initialSessionState with
      messages := [userMessage "same" false, aiMessage "echo" none] }

theorem text_mode_no_dedup_witness :
    ((text_input_handler okOracle dupContentState "same").1.messages.take
        (dupContentState.messages.length + 1)
      = dupContentState.messages ++ [userMessage "same" false]) ∧
    ((text_input_handler okOracle dupContentState "same").2.head?
      = some (Effect.chatCall "same" none)) :=
  text_mode_no_dedup okOracle dupContentState "same" (by decide)

/-- Claim C10: the New Conversation action mutates only the conversation
identifier, the transcript, the processed-audio hash and the audio-input
widget key; the voice, autoplay, language and input-mode settings are
untouched. -/
theorem new_conversation_frame (s : SessionState) :
    (newConversation s).voice_enabled = s.voice_enabled ∧
    (newConversation s).selected_voice = s.selected_voice ∧
    (newConversation s).auto_play = s.auto_play ∧
    (newConversation s).transcription_language = s.transcription_language ∧
    (newConversation s).input_mode = s.input_mode ∧
    (newConversation s).conversation_id = none ∧
    (newConversation s).messages = [] ∧
    (newConversation s).processed_audio_hash = none ∧
    (newConversation s).audio_input_key = s.audio_input_key + 1 :=
  ⟨rfl, rfl, rfl, rfl, rfl, rfl, rfl, rfl, rfl⟩

end VoiceChat

namespace VoiceChat

/-- One iteration of the chat-history render loop (lines 151-173): human
entries only render a bubble; an assistant entry with audio renders a
player when voice output is enabled, autoplaying exactly when auto_play
is on, the entry is the latest one and its just_generated flag is set, in
which case the flag is cleared in place.  Returns the (possibly updated)
entry and whether this render autoplayed it. -/
def renderMessage (voice_enabled auto_play isLatest : Bool) (m : Message) :
    Message × Bool :=
  if m.role = "human" then (m, false)
  else if m.audio.isSome && voice_enabled then
    if auto_play && isLatest && m.just_generated then
      ({ m with just_generated := false }, true)
    else (m, false)
  else (m, false)

/-- The render loop from index i over the tail of the transcript, n being
the full transcript length (enumerate in the source). -/
def renderFrom (ve ap : Bool) (n : Nat) : Nat → List Message → List Message × List Bool
  | _, [] => ([], [])
  | i, m :: rest =>
      let p := renderMessage ve ap (i == n - 1) m
      let q := renderFrom ve ap n (i + 1) rest
      (p.1 :: q.1, p.2 :: q.2)

/-- One full render of the transcript: the updated transcript and, per
index, whether that render autoplayed the entry. -/
def renderMessages (ve ap : Bool) (ms : List Message) :
    List Message × List Bool :=
  renderFrom ve ap ms.length 0 ms

/-- The events that touch the transcript across reruns: a render of the
history (with the current voice and autoplay settings) or an append of a
turn by process_user_input. -/
inductive UIAction where
  | render (voice_enabled auto_play : Bool)
  | appendMsg (m : Message)

/-- Transcript after one UI action. -/
def uiStep (ms : List Message) : UIAction → List Message
  | UIAction.render ve ap => (renderMessages ve ap ms).1
  | UIAction.appendMsg m => ms ++ [m]

/-- Whether the action autoplays the transcript entry at index i. -/
def autoplayedAt (i : Nat) (ms : List Message) : UIAction → Bool
  | UIAction.render ve ap => ((renderMessages ve ap ms).2[i]?).getD false
  | UIAction.appendMsg _ => false

/-- How many of the actions autoplay the entry at index i. -/
def autoplayCount (i : Nat) : List Message → List UIAction → Nat
  | _, [] => 0
  | ms, a :: as =>
      (if autoplayedAt i ms a then 1 else 0) + autoplayCount i (uiStep ms a) as

/-- The entry at index i exists and its one-shot flag is already cleared. -/
def ClearedAt (i : Nat) (ms : List Message) : Prop :=
  ∃ m, ms[i]? = some m ∧ m.just_generated = false

theorem renderMessage_cases (ve ap lat : Bool) (m : Message) :
    renderMessage ve ap lat m = (m, false)
    ∨ (m.just_generated = true
        ∧ renderMessage ve ap lat m = ({ m with just_generated := false }, true)) := by
  unfold renderMessage
  split_ifs with h1 h2 h3
  · exact Or.inl rfl
  · refine Or.inr ⟨?_, rfl⟩
    simp only [Bool.and_eq_true] at h3
    exact h3.2
  · exact Or.inl rfl
  · exact Or.inl rfl

theorem renderMessage_not_generated (ve ap lat : Bool) (m : Message)
    (h : m.just_generated = false) :
    renderMessage ve ap lat m = (m, false) := by
  rcases renderMessage_cases ve ap lat m with he | ⟨hj, _⟩
  · exact he
  · rw [h] at hj
    exact absurd hj (by simp)

theorem renderFrom_getElem (ve ap : Bool) (n : Nat) (ms : List Message) :
    ∀ i j,
      ((renderFrom ve ap n i ms).1[j]?
        = Option.map (fun m => (renderMessage ve ap ((i + j) == n - 1) m).1) ms[j]?)
      ∧ ((renderFrom ve ap n i ms).2[j]?
        = Option.map (fun m => (renderMessage ve ap ((i + j) == n - 1) m).2) ms[j]?) := by
  induction ms with
  | nil => intro i j; simp [renderFrom]
  | cons m rest ih =>
      intro i j
      cases j with
      | zero => simp [renderFrom]
      | succ k =>
          have h := ih (i + 1) k
          have harith : i + (k + 1) = i + 1 + k := by omega
          simp only [renderFrom, List.getElem?_cons_succ, harith]
          exact h

theorem renderMessages_getElem (ve ap : Bool) (ms : List Message) (j : Nat) :
    ((renderMessages ve ap ms).1[j]?
      = Option.map (fun m => (renderMessage ve ap (j == ms.length - 1) m).1) ms[j]?)
    ∧ ((renderMessages ve ap ms).2[j]?
      = Option.map (fun m => (renderMessage ve ap (j == ms.length - 1) m).2) ms[j]?) := by
  simpa [renderMessages] using renderFrom_getElem ve ap ms.length ms 0 j

theorem clearedAt_no_autoplay (i : Nat) (ms : List Message) (a : UIAction)
    (h : ClearedAt i ms) : autoplayedAt i ms a = false := by
  obtain ⟨m, hm, hj⟩ := h
  cases a with
  | appendMsg m2 => rfl
  | render ve ap =>
      have hg := (renderMessages_getElem ve ap ms i).2
      rw [hm] at hg
      simp [autoplayedAt, hg,
        renderMessage_not_generated ve ap (i == ms.length - 1) m hj]

theorem clearedAt_step (i : Nat) (ms : List Message) (a : UIAction)
    (h : ClearedAt i ms) : ClearedAt i (uiStep ms a) := by
  obtain ⟨m, hm, hj⟩ := h
  cases a with
  | appendMsg m2 =>
      have hlt : i < ms.length := by
        rcases List.getElem?_eq_some_iff.mp hm with ⟨hw, _⟩
        exact hw
      exact ⟨m, by rw [uiStep, List.getElem?_append_left hlt]; exact hm, hj⟩
  | render ve ap =>
      have hg := (renderMessages_getElem ve ap ms i).1
      rw [hm] at hg
      refine ⟨(renderMessage ve ap (i == ms.length - 1) m).1, ?_, ?_⟩
      · simpa [uiStep] using hg
      · rw [renderMessage_not_generated ve ap (i == ms.length - 1) m hj]
        exact hj

theorem autoplayCount_zero_of_cleared (i : Nat) (ms : List Message)
    (acts : List UIAction) (h : ClearedAt i ms) :
    autoplayCount i ms acts = 0 := by
  induction acts generalizing ms with
  | nil => rfl
  | cons a as ih =>
      simp [autoplayCount, clearedAt_no_autoplay i ms a h,
        ih (uiStep ms a) (clearedAt_step i ms a h)]

theorem autoplay_clears (i : Nat) (ms : List Message) (ve ap : Bool)
    (h : autoplayedAt i ms (UIAction.render ve ap) = true) :
    ClearedAt i (uiStep ms (UIAction.render ve ap)) := by
  have hsome : (renderMessages ve ap ms).2[i]? = some true := by
    rcases hx : (renderMessages ve ap ms).2[i]? with _ | b
    · rw [autoplayedAt, hx] at h
      exact absurd h (by simp)
    · rw [autoplayedAt, hx] at h
      simp only [Option.getD_some] at h
      rw [h]
  have hg2 := (renderMessages_getElem ve ap ms i).2
  rw [hsome] at hg2
  rcases hmm : ms[i]? with _ | m
  · rw [hmm] at hg2
    exact absurd hg2 (by simp)
  · rw [hmm] at hg2
    simp only [Option.map_some'] at hg2
    have hg2' : (renderMessage ve ap (i == ms.length - 1) m).2 = true := by
      exact (Option.some.injEq _ _).mp hg2.symm
    rcases renderMessage_cases ve ap (i == ms.length - 1) m with he | ⟨hj, he⟩
    · rw [he] at hg2'
      exact absurd hg2' (by simp)
    · have hg1 := (renderMessages_getElem ve ap ms i).1
      rw [hmm] at hg1
      refine ⟨{ m with just_generated := false }, ?_, rfl⟩
      simpa [uiStep, he] using hg1

/-- Claim C8: autoplay fires at most once per assistant turn.  A freshly
created assistant turn carries just_generated = true; across any sequence
of renders (under any voice and autoplay settings) and turn appends, the
entry at any fixed transcript index is autoplayed at most once, and the
render that does autoplay it leaves its one-shot flag cleared, so no later
render of that turn autoplays. -/
theorem autoplay_at_most_once (i : Nat) (ms : List Message)
    (acts : List UIAction) (t : String) (au : Option (List Nat)) :
    (aiMessage t au).just_generated = true ∧
    autoplayCount i ms acts ≤ 1 ∧
    (∀ ve ap, autoplayedAt i ms (UIAction.render ve ap) = true →
        ClearedAt i (uiStep ms (UIAction.render ve ap))) := by
  refine ⟨rfl, ?_, fun ve ap h => autoplay_clears i ms ve ap h⟩
  induction acts generalizing ms with
  | nil => simp [autoplayCount]
  | cons a as ih =>
      by_cases h : autoplayedAt i ms a = true
      · cases a with
        | appendMsg m => exact absurd h (by simp [autoplayedAt])
        | render ve ap =>
            have hz := autoplayCount_zero_of_cleared i
              (uiStep ms (UIAction.render ve ap)) as (autoplay_clears i ms ve ap h)
            simp [autoplayCount, h, hz]
      · have hb : autoplayedAt i ms a = false := by
          simpa using h
        simpa [autoplayCount, hb] using ih (uiStep ms a)

end VoiceChat
